import Mathlib

/-!
Shallow embedding of the chesskitten full-game analysis pipeline.

Sources embedded here:
- src/js/chesslogic.js : ChessLogic (PGN timeline + cursor), getMaterialBalance,
  analyzeFullGame (per-position evaluation, tier cascade, reason tags).
- src/js/engine.js : Engine (Stockfish worker wrapper; message handling,
  evaluate, evalAsync, timeout, promise resolution).

Numbers: the JavaScript code works with floating-point pawn values; the model
uses the rationals, on which every subtraction, negation and comparison in the
source is exact.  Fractional literals are written with mkRat (the decimal
literal of the source is given in a comment next to each).
-/

namespace ChessKitten

/-! ### Tiers (chesslogic.js, CLASSIFICATION table, lines 92-101) -/

/-- The eight move-quality tiers of the CLASSIFICATION table. -/
inductive Tier
  | brilliant | great | best | good | book | inaccuracy | mistake | blunder
deriving DecidableEq

/-- Desirability order used by the spec:
brilliant > great > best > good > book > inaccuracy > mistake > blunder. -/
def Tier.rank : Tier → Nat
  | .brilliant => 7
  | .great => 6
  | .best => 5
  | .good => 4
  | .book => 3
  | .inaccuracy => 2
  | .mistake => 1
  | .blunder => 0

/-! ### Tier cascade (analyzeFullGame, chesslogic.js lines 262-292) -/

/-- Line 270: engineBest && (playedMove.from + playedMove.to) === engineBest.
A null engineBest never matches. -/
def engineBestMatches (fromSq toSq : String) (engineBest : Option String) : Bool :=
  match engineBest with
  | some eb => fromSq ++ toSq == eb
  | none => false

/-- Lines 273-275: the inner ladder of the engine-best-match branch. -/
def matchLadder (cpLoss : ℚ) : Tier :=
  if cpLoss ≤ -2 then .brilliant
  else if cpLoss ≤ -1 then .great
  else .best

/-- Lines 278-292: the centipawn-loss threshold ladder
(0.4 = mkRat 2 5, 1.2 = mkRat 6 5, 2.5 = mkRat 5 2). -/
def lossLadder (cpLoss : ℚ) : Tier :=
  if cpLoss ≤ -2 then .brilliant
  else if cpLoss ≤ -1 then .great
  else if cpLoss ≤ mkRat 2 5 then .best
  else if cpLoss ≤ mkRat 6 5 then .good
  else if cpLoss ≤ mkRat 5 2 then .inaccuracy
  else if cpLoss ≤ 5 then .mistake
  else .blunder

/-- Lines 262-292: the full ordered cascade.  BOOK_MOVES = 6 (line 235); the
book rule (m < 6 and |cpLoss| < 0.5, line 265) is tested before the
engine-best-match rule, which is tested before the loss ladder. -/
def classifyTier (m : Nat) (cpLoss : ℚ) (fromSq toSq : String)
    (engineBest : Option String) : Tier :=
  if m < 6 ∧ |cpLoss| < mkRat 1 2 then .book
  else if engineBestMatches fromSq toSq engineBest then matchLadder cpLoss
  else lossLadder cpLoss

/-! ### Per-position evaluation (analyzeFullGame, chesslogic.js lines 196-231) -/

/-- Result of one awaited oracle evaluation (side-to-move perspective). -/
structure OracleResult where
  score : ℚ
  isMate : Bool
  bestMove : Option String
  pv : String
deriving DecidableEq

/-- One entry of the evals array (White-perspective score).  The terminal
branch of the source pushes no pv field; the empty string models the absent
(falsy) field. -/
structure EvalEntry where
  score : ℚ
  isMate : Bool
  raw : ℚ
  pv : String
deriving DecidableEq

/-- What the loop can see about one position of the timeline: the terminal
status reported by the rules collaborator and the oracle reply that
engine.evalAsync would produce for it. -/
structure PosCtx where
  gameOver : Bool
  inCheckmate : Bool
  isWhiteTurn : Bool
  oracle : OracleResult
deriving DecidableEq

def defaultOracle : OracleResult := { score := 0, isMate := false, bestMove := none, pv := "" }

def defaultPosCtx : PosCtx :=
  { gameOver := false, inCheckmate := false, isWhiteTurn := true, oracle := defaultOracle }

def defaultEvalEntry : EvalEntry := { score := 0, isMate := false, raw := 0, pv := "" }

/-- Lines 196-231, one loop iteration: terminal positions are synthesized
(checkmate gives -100 or 100 from the White perspective, any other ended game
gives 0) and push a null best move; otherwise the oracle result is normalized
to the White perspective. -/
def evalOnePosition (p : PosCtx) : EvalEntry × Option String :=
  if p.gameOver then
    ({ score := if p.inCheckmate then (if p.isWhiteTurn then -100 else 100) else 0,
       isMate := p.inCheckmate,
       raw := 0,
       pv := "" }, none)
  else
    ({ score := if p.isWhiteTurn then p.oracle.score else -p.oracle.score,
       isMate := p.oracle.isMate,
       raw := p.oracle.score,
       pv := p.oracle.pv }, p.oracle.bestMove)

/-- The evaluation loop over the whole timeline: evals and bestMoves arrays. -/
def analyzeEvals (ps : List PosCtx) : List EvalEntry × List (Option String) :=
  (ps.map (fun p => (evalOnePosition p).1), ps.map (fun p => (evalOnePosition p).2))

/-- A one-position timeline whose only position is a checkmate. -/
def psWitness : List PosCtx :=
  [{ gameOver := true, inCheckmate := true, isWhiteTurn := true, oracle := defaultOracle }]

/-- An unrelated oracle reply, used to check oracle-independence of the
terminal synthesis. -/
def oracleAlt : OracleResult :=
  { score := 5, isMate := true, bestMove := some "e2e4", pv := "e2e4 e7e5" }

/-- Concrete evaluation entries around one half-move: a mate-flagged entry
before and a plain entry after. -/
def ebMate : EvalEntry := { score := 3, isMate := true, raw := 3, pv := "" }

def eaDrop : EvalEntry := { score := -4, isMate := false, raw := -4, pv := "" }

/-! ### Centipawn loss (analyzeFullGame, chesslogic.js lines 245-260) -/

/-- Lines 246-247: mate scores are collapsed to -100 or 100 by their sign. -/
def collapseScore (isMate : Bool) (score : ℚ) : ℚ :=
  if isMate then (if score > 0 then 100 else -100) else score

/-- Lines 255-260: loss from the mover perspective. -/
def cpLossOf (isWhiteMove : Bool) (scoreBefore scoreAfter : ℚ) : ℚ :=
  if isWhiteMove then scoreBefore - scoreAfter else scoreAfter - scoreBefore

/-- The cpLoss the classifier computes for one half-move. -/
def moveCpLoss (evalBefore evalAfter : EvalEntry) (isWhiteMove : Bool) : ℚ :=
  cpLossOf isWhiteMove (collapseScore evalBefore.isMate evalBefore.score)
    (collapseScore evalAfter.isMate evalAfter.score)

/-! ### Material balance (chesslogic.js lines 103-111) -/

/-- The vals table of getMaterialBalance; characters absent from the table
(kings, digits, slashes) contribute nothing. -/
def pieceVal (c : Char) : Int :=
  if c = 'P' then 1
  else if c = 'N' then 3
  else if c = 'B' then 3
  else if c = 'R' then 5
  else if c = 'Q' then 9
  else if c = 'p' then -1
  else if c = 'n' then -3
  else if c = 'b' then -3
  else if c = 'r' then -5
  else if c = 'q' then -9
  else 0

/-- Line 104: fen.split(sp)[0], the piece-placement field of the FEN. -/
def fenPieceField (fen : String) : String :=
  (fen.splitOn " ").headD ""

/-- Lines 103-111: the running sum over the characters of the placement field. -/
def getMaterialBalance (fen : String) : Int :=
  (fenPieceField fen).toList.foldl (fun bal c => bal + pieceVal c) 0

/-- The signed sum the spec describes: value times (White count minus Black
count) for each piece kind, kings counting zero.  Stated from the spec words,
to be compared with getMaterialBalance. -/
def materialSpec (placement : List Char) : Int :=
  1 * ((placement.count 'P' : Int) - (placement.count 'p' : Int))
  + 3 * ((placement.count 'N' : Int) - (placement.count 'n' : Int))
  + 3 * ((placement.count 'B' : Int) - (placement.count 'b' : Int))
  + 5 * ((placement.count 'R' : Int) - (placement.count 'r' : Int))
  + 9 * ((placement.count 'Q' : Int) - (placement.count 'q' : Int))
  + 0 * ((placement.count 'K' : Int) - (placement.count 'k' : Int))

/-- Line 297: matDiff from the mover perspective. -/
def moverMatDiff (isWhiteMove : Bool) (matBefore matAfter : Int) : Int :=
  if isWhiteMove then matAfter - matBefore else -(matAfter - matBefore)

/-! ### Reason tags (analyzeFullGame, chesslogic.js lines 317-421) -/

/-- The tag vocabulary pushed by the source (string literals there). -/
inductive Tag
  | is_check | is_capture | is_castling | missed_mate
  | hanging_piece | lost_material | missed_tactic | weakened_king
  | ignored_threat | missed_fork | missed_castling | early_queen
  | knight_on_rim | edge_pawn_push | redundant_move
  | bad_trade | allowed_trade | kicks_piece
deriving DecidableEq

/-- A logic.squares entry: {from, to, color, piece} (chesslogic.js line 41). -/
structure SquareRec where
  fromSq : String
  toSq : String
  color : Char
  piece : Char
deriving DecidableEq

/-- A piece returned by the rules-engine board lookup (tempGame.get). -/
structure PieceInfo where
  ptype : Char
  pcolor : Char
deriving DecidableEq

/-- Substring test, the JavaScript String.includes. -/
def charsPrefixOf : List Char → List Char → Bool
  | [], _ => true
  | _ :: _, [] => false
  | a :: as, b :: bs => a == b && charsPrefixOf as bs

def charsInfixOf (needle : List Char) : List Char → Bool
  | [] => charsPrefixOf needle []
  | hay@(_ :: rest) => charsPrefixOf needle hay || charsInfixOf needle rest

def jsIncludes (s sub : String) : Bool :=
  charsInfixOf sub.toList s.toList

/-- The JavaScript String.startsWith. -/
def jsStartsWith (s pre : String) : Bool :=
  charsPrefixOf pre.toList s.toList

/-- Line 367: engineBestSan && engineBestSan.startsWith of N. -/
def sanStartsWithKnight : Option String → Bool
  | some s => jsStartsWith s "N"
  | none => false

/-- Lines 392-396: the previous own move exists, moved the same piece, and
its destination is the source of the current move. -/
def redundantWith (played : SquareRec) : Option SquareRec → Bool
  | some lm => played.piece == lm.piece && played.fromSq == lm.toSq
  | none => false

/-- Line 387: san.match of one a or h followed by a rank from 3 to 6,
anchored at the start. -/
def edgePawnPattern (san : String) : Bool :=
  match san.toList with
  | a :: b :: _ => (a == 'a' || a == 'h') && (b == '3' || b == '4' || b == '5' || b == '6')
  | _ => false

/-- Everything the tag block of analyzeFullGame reads for one half-move. -/
structure TagCtx where
  san : String
  m : Nat
  isWhiteMove : Bool
  cpLoss : ℚ
  scoreBefore : ℚ
  scoreAfter : ℚ
  evalBeforeIsMate : Bool
  evalBeforeScore : ℚ
  evalAfterIsMate : Bool
  evalBeforePv : String
  evalAfterPv : String
  engineBestSan : Option String
  phase : String
  matDiff : Int
  played : SquareRec
  prevOwnMove : Option SquareRec
  pieceAtAfter : String → Option PieceInfo

/-- Lines 323-331: tags applied to all moves. -/
def contextTags (c : TagCtx) : List Tag :=
  (if jsIncludes c.san "+" then [Tag.is_check] else [])
  ++ (if jsIncludes c.san "x" then [Tag.is_capture] else [])
  ++ (if jsIncludes c.san "O-O" then [Tag.is_castling] else [])
  ++ (if (if c.isWhiteMove then
            c.evalBeforeIsMate ∧ 0 < c.evalBeforeScore ∧ ¬ c.evalAfterIsMate
          else
            c.evalBeforeIsMate ∧ c.evalBeforeScore < 0 ∧ ¬ c.evalAfterIsMate)
      then [Tag.missed_mate] else [])

/-- Lines 333-407: tags for moves with cpLoss above 1.2 (inaccuracy or worse).
The bad-trade test of line 402 compares the pawn-scaled scoreBefore with
-300 and 300, exactly as the source does. -/
def blunderTags (c : TagCtx) : List Tag :=
  (if c.matDiff ≤ -3 then [Tag.hanging_piece]
   else if c.matDiff < 0 then [Tag.lost_material] else [])
  ++ (if c.evalBeforePv ≠ "" ∧ (jsIncludes c.evalBeforePv "x" ∨ jsIncludes c.evalBeforePv "+")
      then [Tag.missed_tactic] else [])
  ++ (if jsIncludes c.san "K" then [Tag.weakened_king] else [])
  ++ (if c.evalAfterPv ≠ "" ∧ jsIncludes c.evalAfterPv "x"
      then [Tag.ignored_threat] else [])
  ++ (if sanStartsWithKnight c.engineBestSan ∧ 2 < c.scoreBefore - c.scoreAfter
      then [Tag.missed_fork] else [])
  ++ (if jsStartsWith c.san "K" ∧ ¬ jsIncludes c.san "O-O" ∧ c.phase = "opening"
      then [Tag.missed_castling] else [])
  ++ (if jsStartsWith c.san "Q" ∧ c.phase = "opening" ∧ c.m < 10
      then [Tag.early_queen] else [])
  ++ (if jsStartsWith c.san "N" ∧ (jsIncludes c.san "a" ∨ jsIncludes c.san "h")
      then [Tag.knight_on_rim] else [])
  ++ (if edgePawnPattern c.san ∧ c.phase = "opening"
      then [Tag.edge_pawn_push] else [])
  ++ (if 2 ≤ c.m ∧ c.phase = "opening" ∧ redundantWith c.played c.prevOwnMove
      then [Tag.redundant_move] else [])
  ++ (if |c.matDiff| = 0 ∧ jsIncludes c.san "x" then
        (if (c.isWhiteMove ∧ c.scoreBefore < -300) ∨ (¬ c.isWhiteMove ∧ 300 < c.scoreBefore)
         then [Tag.bad_trade] else [Tag.allowed_trade])
      else [])

/-- Lines 408-421: the pawn-kick check for moves at or below the Good line. -/
def pawnTags (c : TagCtx) : List Tag :=
  let nextBest := if c.evalAfterPv ≠ "" then (c.evalAfterPv.splitOn " ").headD "" else ""
  if 4 ≤ nextBest.length then
    match c.pieceAtAfter (String.mk (nextBest.toList.take 2)) with
    | some pi =>
        if (pi.ptype = 'n' ∨ pi.ptype = 'b' ∨ pi.ptype = 'r' ∨ pi.ptype = 'q')
            ∧ pi.pcolor ≠ c.played.color
        then [Tag.kicks_piece] else []
    | none => []
  else []

/-- Lines 320-421 assembled: context tags always, then the block selected by
cpLoss > 1.2, with the pawn-kick block as its else-if. -/
def computeTags (c : TagCtx) : List Tag :=
  contextTags c
  ++ (if mkRat 6 5 < c.cpLoss then blunderTags c
      else if c.played.piece = 'p' then pawnTags c
      else [])

/-- Concrete tag context for the trade-threshold check: White plays an equal
capture while already five pawns down, losing two more pawns of evaluation. -/
def tradeCtx : TagCtx :=
  { san := "Qxd5"
    m := 20
    isWhiteMove := true
    cpLoss := 2
    scoreBefore := -5
    scoreAfter := -7
    evalBeforeIsMate := false
    evalBeforeScore := -5
    evalAfterIsMate := false
    evalBeforePv := ""
    evalAfterPv := ""
    engineBestSan := none
    phase := "middlegame"
    matDiff := 0
    played := { fromSq := "d1", toSq := "d5", color := 'w', piece := 'q' }
    prevOwnMove := none
    pieceAtAfter := fun _ => none }

/-! ### ChessLogic timeline (chesslogic.js lines 5-87) -/

/-- One verbose move of game.history: san plus from, to, color, piece. -/
structure VerboseMove where
  san : String
  fromSq : String
  toSq : String
  color : Char
  piece : Char
deriving DecidableEq

def squareOf (v : VerboseMove) : SquareRec :=
  { fromSq := v.fromSq, toSq := v.toSq, color := v.color, piece := v.piece }

/-- One stored classification (the record pushed at lines 428-445; fields that
only carry UI labels are omitted). -/
structure Classification where
  key : String
  cpLoss : ℚ
  evalBefore : ℚ
  evalAfter : ℚ
  engineBest : Option String
  tags : List Tag
  phase : String
  matBefore : Int
  matAfter : Int
deriving DecidableEq

/-- The rules collaborator (chess.js): PGN parsing and deterministic replay.
fenAfter ms is the FEN after playing ms from the start position, so
fenAfter [] is the starting FEN produced by game.reset. -/
structure RulesEngine where
  parsePgn : String → Option (List VerboseMove)
  fenAfter : List VerboseMove → String

/-- The observable ChessLogic timeline state. -/
structure LogicState where
  fens : List String
  sans : List String
  squares : List SquareRec
  idx : Nat
  classifications : List Classification
deriving DecidableEq

/-- Constructor (lines 6-14) and reset (lines 16-24): clear everything and
snapshot the start position. -/
def initState (R : RulesEngine) : LogicState :=
  { fens := [R.fenAfter []], sans := [], squares := [], idx := 0, classifications := [] }

/-- The fens array the replay loop of loadPGN builds: one snapshot before any
move plus one after every move. -/
def fensOfReplay (R : RulesEngine) (ms : List VerboseMove) : List String :=
  (List.range (ms.length + 1)).map (fun k => R.fenAfter (ms.take k))

/-- loadPGN (lines 30-47): reset first, then parse; on failure return false
with the timeline left as reset made it; on success replay every move,
snapshotting, and set idx to the last position. -/
def loadPGN (R : RulesEngine) (_s : LogicState) (pgn : String) : Bool × LogicState :=
  match R.parsePgn pgn with
  | none => (false, initState R)
  | some ms =>
      (true,
       { fens := fensOfReplay R ms
         sans := ms.map (fun v => v.san)
         squares := ms.map squareOf
         idx := ms.length
         classifications := [] })

/-- Lines 70-74: the navigation operations. -/
def goStart (s : LogicState) : LogicState := { s with idx := 0 }

def goEnd (s : LogicState) : LogicState := { s with idx := s.fens.length - 1 }

def goNext (s : LogicState) : LogicState :=
  if s.idx < s.fens.length - 1 then { s with idx := s.idx + 1 } else s

def goPrev (s : LogicState) : LogicState :=
  if 0 < s.idx then { s with idx := s.idx - 1 } else s

def goTo (s : LogicState) (i : Int) : LogicState :=
  if 0 ≤ i ∧ i < (s.fens.length : Int) then { s with idx := i.toNat } else s

/-- The public operations a caller can run on a ChessLogic instance. -/
inductive LogicOp
  | reset
  | load (pgn : String)
  | start
  | finish
  | next
  | prev
  | seek (i : Int)

def applyOp (R : RulesEngine) (s : LogicState) : LogicOp → LogicState
  | .reset => initState R
  | .load pgn => (loadPGN R s pgn).2
  | .start => goStart s
  | .finish => goEnd s
  | .next => goNext s
  | .prev => goPrev s
  | .seek i => goTo s i

def runOps (R : RulesEngine) (ops : List LogicOp) : LogicState :=
  ops.foldl (applyOp R) (initState R)

/-- A concrete one-move game for the rules collaborator. -/
def mv0 : VerboseMove :=
  { san := "e4", fromSq := "e2", toSq := "e4", color := 'w', piece := 'p' }

/-- A concrete rules engine: exactly one parsable transcript. -/
def rules0 : RulesEngine :=
  { parsePgn := fun p => if p = "1. e4" then some [mv0] else none
    fenAfter := fun ms => if ms.isEmpty then "startfen" else "fen-after-e4" }

/-! ### Engine session (engine.js) -/

/-- The record an evalAsync promise is resolved with (lines 95-101). -/
structure EvalResultR where
  depth : Nat
  score : ℚ
  isMate : Bool
  bestMove : Option String
  pv : Option String
deriving DecidableEq

/-- The mutable fields of the Engine object (lines 6-18). -/
structure EngineSt where
  ready : Bool
  hasWorker : Bool
  currentDepth : Nat
  currentScore : ℚ
  currentIsMate : Bool
  currentBestMove : Option String
  currentPv : Option String
  resolveEval : Option Nat
  isAsyncSearch : Bool
  timeoutArmed : Bool
deriving DecidableEq

/-- The engine together with the worker it drives.  Searches are numbered in
the order their go commands are posted; running is the search the worker is
computing, outbox queues the bestmove lines of searches ended by a stop
command, and resolutions logs every promise resolution as
(promise id, id of the search whose bestmove resolved it or none for the
timeout, resolved value). -/
structure Sys where
  eng : EngineSt
  running : Option Nat
  outbox : List Nat
  nextSearch : Nat
  resolutions : List (Nat × Option Nat × EvalResultR)
deriving DecidableEq

def snapshotResult (e : EngineSt) : EvalResultR :=
  { depth := e.currentDepth, score := e.currentScore, isMate := e.currentIsMate,
    bestMove := e.currentBestMove, pv := e.currentPv }

/-- Posting stop (lines 120, 141, 152): an interrupted search will still emit
its bestmove line, which is queued for delivery. -/
def postStop (s : Sys) : Sys :=
  match s.running with
  | some sid => { s with running := none, outbox := s.outbox ++ [sid] }
  | none => s

/-- Posting go (lines 122, 154): the worker starts the next numbered search. -/
def postGo (s : Sys) : Sys :=
  { s with running := some s.nextSearch, nextSearch := s.nextSearch + 1 }

/-- The bestmove branch of onMessage (lines 84-103).  origin is the search
the delivered line belongs to; the handler itself never looks at it. -/
def onBestmove (s : Sys) (origin : Option Nat) (mv : Option String) : Sys :=
  let e0 := s.eng
  let e1 := match mv with
    | some m => if m ≠ "(none)" then { e0 with currentBestMove := some m } else e0
    | none => e0
  match e1.resolveEval, e1.isAsyncSearch with
  | some pid, true =>
      { s with
          eng := { e1 with resolveEval := none, isAsyncSearch := false, timeoutArmed := false },
          resolutions := s.resolutions ++ [(pid, origin, snapshotResult e1)] }
  | _, _ => { s with eng := e1 }

/-- The info branch of onMessage (lines 47-81). -/
def onInfo (s : Sys) (depth : Nat) (score : ℚ) (isMate : Bool) (pv : Option String) : Sys :=
  let e0 := { s.eng with currentDepth := depth, currentScore := score, currentIsMate := isMate }
  let e1 := match pv with
    | some p =>
        let bm := (p.splitOn " ").headD ""
        let e := if bm ≠ "" then { e0 with currentBestMove := some bm } else e0
        { e with currentPv := some p }
    | none => e0
  { s with eng := e1 }

/-- The body of evalAsync once the engine is ready (lines 127-154): flag the
async search, store the pending promise, zero the snapshot fields (the pv
field is not reset by the source), arm the timeout, then post stop, position
and go. -/
def waitReadyBody (s : Sys) (pid : Nat) : Sys :=
  let e := { s.eng with
      isAsyncSearch := true
      resolveEval := some pid
      currentBestMove := none
      currentScore := 0
      currentIsMate := false
      currentDepth := 0
      timeoutArmed := true }
  postGo (postStop { s with eng := e })

/-- The events that can hit the engine: worker lines, worker search
completion, the public calls, and the timeout firing.  Calls made before
readiness poll and retry, so an event that is not enabled leaves the state
unchanged and may be delivered again later by the scheduler. -/
inductive Ev
  | msgUciOk
  | msgReadyOk
  | msgInfo (depth : Nat) (score : ℚ) (isMate : Bool) (pv : Option String)
  | workerFinish (mv : Option String)
  | deliverStopped (mv : Option String)
  | apiEvaluate
  | apiEvalAsync (pid : Nat)
  | apiStop
  | fireTimeout

def stepSys (s : Sys) : Ev → Sys
  | .msgUciOk => s
  | .msgReadyOk =>
      if s.eng.hasWorker then { s with eng := { s.eng with ready := true } } else s
  | .msgInfo depth score isMate pv =>
      if s.eng.hasWorker then onInfo s depth score isMate pv else s
  | .workerFinish mv =>
      match s.running with
      | some sid => onBestmove { s with running := none } (some sid) mv
      | none => s
  | .deliverStopped mv =>
      match s.outbox with
      | sid :: rest => onBestmove { s with outbox := rest } (some sid) mv
      | [] => s
  | .apiEvaluate =>
      if s.eng.hasWorker ∧ s.eng.ready then postGo (postStop s) else s
  | .apiEvalAsync pid =>
      if s.eng.ready then waitReadyBody s pid else s
  | .apiStop =>
      if s.eng.hasWorker then postStop s else s
  | .fireTimeout =>
      if s.eng.timeoutArmed then
        match s.eng.resolveEval with
        | some pid =>
            let e := { s.eng with resolveEval := none, isAsyncSearch := false, timeoutArmed := false }
            postStop { s with
                eng := e
                resolutions := s.resolutions ++ [(pid, none, snapshotResult s.eng)] }
        | none => { s with eng := { s.eng with timeoutArmed := false } }
      else s

def runSys (s : Sys) (evs : List Ev) : Sys :=
  evs.foldl stepSys s

/-- The engine right after its constructor and init (lines 6-33): not ready,
with or without a worker depending on whether the Worker construction threw. -/
def initEngineSt (workerOk : Bool) : EngineSt :=
  { ready := false
    hasWorker := workerOk
    currentDepth := 0
    currentScore := 0
    currentIsMate := false
    currentBestMove := none
    currentPv := none
    resolveEval := none
    isAsyncSearch := false
    timeoutArmed := false }

def initSys (workerOk : Bool) : Sys :=
  { eng := initEngineSt workerOk
    running := none
    outbox := []
    nextSearch := 0
    resolutions := [] }

/-- What a call to evaluate does at its entry (lines 107-117): dropped when
the worker is missing, deferred by the readiness poll, or issued. -/
inductive EvalOutcome
  | dropped | deferredUntilReady | issued
deriving DecidableEq

def evaluateOutcome (e : EngineSt) : EvalOutcome :=
  if e.hasWorker = false then .dropped
  else if e.ready = false then .deferredUntilReady
  else .issued

/-- A live evaluation is running (search 0); evalAsync for promise 7 then
interrupts it (search 1) and the bestmove line of the interrupted search 0
arrives before search 1 finishes. -/
def staleTrace : List Ev :=
  [.msgUciOk, .msgReadyOk, .apiEvaluate, .apiEvalAsync 7, .deliverStopped (some "a7a6")]

/-! ## Theorems -/

/-! ### Ladder monotonicity helpers -/

set_option maxHeartbeats 1000000 in
theorem matchLadder_mono (x y : ℚ) (hxy : x ≤ y) :
    Tier.rank (matchLadder y) ≤ Tier.rank (matchLadder x) := by
  unfold matchLadder
  split_ifs <;> first | decide | linarith

set_option maxHeartbeats 1000000 in
theorem lossLadder_mono (x y : ℚ) (hxy : x ≤ y) :
    Tier.rank (lossLadder y) ≤ Tier.rank (lossLadder x) := by
  unfold lossLadder
  split_ifs <;> first | decide | linarith

/-- Claim C1, counterexample: a played move that equals the recorded
engine-best move is classified Book, not Best or better, when it falls in the
book window (half-move index below 6 and |cpLoss| below 0.5) — so the tier is
not in the set Best, Great, Brilliant regardless of index, contrary to the
claim. -/
theorem engineBest_match_book_overrides :
    engineBestMatches "e2" "e4" (some "e2e4") = true ∧
    classifyTier 0 0 "e2" "e4" (some "e2e4") = Tier.book ∧
    Tier.book ∉ [Tier.best, Tier.great, Tier.brilliant] := by
  decide

/-- Claim C1, amended: whenever the played move matches the engine-best move,
the tier is never Good, Inaccuracy, Mistake or Blunder; and outside the book
window (not both index below 6 and |cpLoss| below 0.5) the tier is Brilliant
when cpLoss is at most -2.0, Great when cpLoss is at most -1.0, else Best —
hence in the set Best, Great, Brilliant. -/
theorem engineBest_match_never_bad (m : Nat) (cpLoss : ℚ) (fromSq toSq eb : String)
    (hmatch : fromSq ++ toSq = eb) :
    classifyTier m cpLoss fromSq toSq (some eb)
      ∉ [Tier.good, Tier.inaccuracy, Tier.mistake, Tier.blunder] ∧
    (¬ (m < 6 ∧ |cpLoss| < mkRat 1 2) →
      classifyTier m cpLoss fromSq toSq (some eb)
        = (if cpLoss ≤ -2 then Tier.brilliant else if cpLoss ≤ -1 then Tier.great else Tier.best) ∧
      classifyTier m cpLoss fromSq toSq (some eb)
        ∈ [Tier.best, Tier.great, Tier.brilliant]) := by
  have hm : engineBestMatches fromSq toSq (some eb) = true := by
    simp [engineBestMatches, hmatch]
  constructor
  · unfold classifyTier
    by_cases hb : m < 6 ∧ |cpLoss| < mkRat 1 2
    · rw [if_pos hb]; decide
    · rw [if_neg hb, if_pos hm]
      unfold matchLadder
      split_ifs <;> decide
  · intro hnb
    unfold classifyTier
    rw [if_neg hnb, if_pos hm]
    unfold matchLadder
    split_ifs <;> simp

theorem engineBest_match_never_bad_witness :
    ("e2" ++ "e4" = "e2e4") ∧
    (classifyTier 6 (-3) "e2" "e4" (some "e2e4")
      ∉ [Tier.good, Tier.inaccuracy, Tier.mistake, Tier.blunder] ∧
    (¬ ((6:Nat) < 6 ∧ |(-3:ℚ)| < mkRat 1 2) →
      classifyTier 6 (-3) "e2" "e4" (some "e2e4")
        = (if (-3:ℚ) ≤ -2 then Tier.brilliant else if (-3:ℚ) ≤ -1 then Tier.great else Tier.best) ∧
      classifyTier 6 (-3) "e2" "e4" (some "e2e4")
        ∈ [Tier.best, Tier.great, Tier.brilliant])) :=
  ⟨by decide, engineBest_match_never_bad 6 (-3) "e2" "e4" "e2e4" (by decide)⟩

/-- Claim C3: for every position of the timeline at which the game has ended,
the analyzer synthesizes the evaluation: the mate flag equals the checkmate
status, the White-perspective score is -100 when the checkmated side is White,
+100 when it is Black, and 0 for any other ended game; no best move is
recorded, and the synthesized result does not depend on the oracle. -/
theorem analyzeEvals_terminal_synthesis (ps : List PosCtx) (i : Nat) (o : OracleResult)
    (hi : i < ps.length) (hover : (ps.getD i defaultPosCtx).gameOver = true) :
    ((analyzeEvals ps).1.getD i defaultEvalEntry).isMate
      = (ps.getD i defaultPosCtx).inCheckmate ∧
    ((analyzeEvals ps).1.getD i defaultEvalEntry).score
      = (if (ps.getD i defaultPosCtx).inCheckmate then
          (if (ps.getD i defaultPosCtx).isWhiteTurn then (-100 : ℚ) else 100) else 0) ∧
    (analyzeEvals ps).2.getD i (some "") = none ∧
    evalOnePosition { ps.getD i defaultPosCtx with oracle := o }
      = evalOnePosition (ps.getD i defaultPosCtx) := by
  have hi1 : i < (analyzeEvals ps).1.length := by simpa [analyzeEvals] using hi
  have hi2 : i < (analyzeEvals ps).2.length := by simpa [analyzeEvals] using hi
  rw [List.getD_eq_getElem _ _ hi] at hover ⊢
  rw [List.getD_eq_getElem _ _ hi1, List.getD_eq_getElem _ _ hi2]
  simp only [analyzeEvals, List.getElem_map]
  unfold evalOnePosition
  simp [hover]

theorem analyzeEvals_terminal_synthesis_witness :
    (0 < psWitness.length ∧ (psWitness.getD 0 defaultPosCtx).gameOver = true) ∧
    (((analyzeEvals psWitness).1.getD 0 defaultEvalEntry).isMate
       = (psWitness.getD 0 defaultPosCtx).inCheckmate ∧
     ((analyzeEvals psWitness).1.getD 0 defaultEvalEntry).score
       = (if (psWitness.getD 0 defaultPosCtx).inCheckmate then
           (if (psWitness.getD 0 defaultPosCtx).isWhiteTurn then (-100 : ℚ) else 100) else 0) ∧
     (analyzeEvals psWitness).2.getD 0 (some "") = none ∧
     evalOnePosition { psWitness.getD 0 defaultPosCtx with oracle := oracleAlt }
       = evalOnePosition (psWitness.getD 0 defaultPosCtx)) :=
  ⟨⟨by decide, by decide⟩,
    analyzeEvals_terminal_synthesis psWitness 0 oracleAlt (by decide) (by decide)⟩

/-- Claim C4: for every half-move, with scoreBefore and scoreAfter the
mate-collapsed White-perspective evaluations around the move, cpLoss is
scoreBefore - scoreAfter for a White mover and scoreAfter - scoreBefore for a
Black mover; hence a White move dropping the White advantage by d > 0 and a
Black move dropping the Black advantage by the same d yield the same positive
cpLoss d. -/
theorem cpLoss_mover_sign_convention (evalBefore evalAfter : EvalEntry)
    (d wBefore bBefore : ℚ) (hd : 0 < d) :
    moveCpLoss evalBefore evalAfter true
      = collapseScore evalBefore.isMate evalBefore.score
        - collapseScore evalAfter.isMate evalAfter.score ∧
    moveCpLoss evalBefore evalAfter false
      = collapseScore evalAfter.isMate evalAfter.score
        - collapseScore evalBefore.isMate evalBefore.score ∧
    cpLossOf true wBefore (wBefore - d) = d ∧
    cpLossOf false bBefore (bBefore + d) = d ∧
    0 < cpLossOf true wBefore (wBefore - d) ∧
    cpLossOf true wBefore (wBefore - d) = cpLossOf false bBefore (bBefore + d) := by
  refine ⟨rfl, rfl, ?_, ?_, ?_, ?_⟩
  · simp [cpLossOf]
  · simp [cpLossOf]
  · simpa [cpLossOf] using hd
  · simp [cpLossOf]

theorem cpLoss_mover_sign_convention_witness :
    (0:ℚ) < 1 ∧
    (moveCpLoss ebMate eaDrop true
      = collapseScore ebMate.isMate ebMate.score - collapseScore eaDrop.isMate eaDrop.score ∧
    moveCpLoss ebMate eaDrop false
      = collapseScore eaDrop.isMate eaDrop.score - collapseScore ebMate.isMate ebMate.score ∧
    cpLossOf true 2 (2 - 1) = 1 ∧
    cpLossOf false (-2) (-2 + 1) = 1 ∧
    (0:ℚ) < cpLossOf true 2 (2 - 1) ∧
    cpLossOf true 2 (2 - 1) = cpLossOf false (-2) (-2 + 1)) :=
  ⟨by decide, cpLoss_mover_sign_convention ebMate eaDrop 1 2 (-2) (by decide)⟩

/-- Claim C5, counterexample: at half-move index 0 (book window), cpLoss 0.45
is classified Book while the larger cpLoss 0.6 is classified Good, and Good
ranks strictly above Book in the desirability order — so decreasing cpLoss
produced a worse tier. -/
theorem tier_not_monotone_in_book_window :
    (mkRat 45 100 : ℚ) < mkRat 6 10 ∧
    classifyTier 0 (mkRat 45 100) "e2" "e4" none = Tier.book ∧
    classifyTier 0 (mkRat 6 10) "e2" "e4" none = Tier.good ∧
    Tier.rank (classifyTier 0 (mkRat 45 100) "e2" "e4" none)
      < Tier.rank (classifyTier 0 (mkRat 6 10) "e2" "e4" none) := by
  decide

/-- Claim C5, amended: for every fixed half-move index at which the book rule
cannot fire (index at least 6) and fixed move record and engine-best move,
the tier is monotone in cpLoss: for cpLoss values x < y the tier assigned at
x is never worse than the tier assigned at y in the desirability order. -/
theorem classifyTier_monotone_outside_book (m : Nat) (fromSq toSq : String)
    (eb : Option String) (x y : ℚ) (hm : 6 ≤ m) (hxy : x < y) :
    Tier.rank (classifyTier m y fromSq toSq eb)
      ≤ Tier.rank (classifyTier m x fromSq toSq eb) := by
  have hnb : ¬ m < 6 := by omega
  unfold classifyTier
  simp only [hnb, false_and, if_false]
  cases hb : engineBestMatches fromSq toSq eb
  · simp only [Bool.false_eq_true, if_false]
    exact lossLadder_mono x y (le_of_lt hxy)
  · simp only [if_true]
    exact matchLadder_mono x y (le_of_lt hxy)

theorem classifyTier_monotone_outside_book_witness :
    (6:Nat) ≤ 6 ∧ (0:ℚ) < 3 ∧
    Tier.rank (classifyTier 6 3 "e2" "e4" none)
      ≤ Tier.rank (classifyTier 6 0 "e2" "e4" none) :=
  ⟨by decide, by decide,
    classifyTier_monotone_outside_book 6 "e2" "e4" none 0 3 (by decide) (by decide)⟩

/-! ### Tag membership helpers -/

theorem mem_iteSingleton {α : Type} {x y : α} {p : Prop} [Decidable p] :
    x ∈ (if p then [y] else ([] : List α)) ↔ p ∧ x = y := by
  split_ifs with h <;> simp [h]

theorem mem_iteChain {α : Type} {x u v : α} {p q : Prop} [Decidable p] [Decidable q] :
    x ∈ (if p then [u] else if q then [v] else ([] : List α))
      ↔ (p ∧ x = u) ∨ (¬ p ∧ q ∧ x = v) := by
  split_ifs <;> simp_all

theorem mem_iteNested {α : Type} {x u v : α} {p q : Prop} [Decidable p] [Decidable q] :
    x ∈ (if p then (if q then [u] else [v]) else ([] : List α))
      ↔ p ∧ ((q ∧ x = u) ∨ (¬ q ∧ x = v)) := by
  split_ifs <;> simp_all

theorem mem_iteList {α : Type} {x : α} {p : Prop} [Decidable p] {l₁ l₂ : List α} :
    x ∈ (if p then l₁ else l₂) ↔ (p ∧ x ∈ l₁) ∨ (¬ p ∧ x ∈ l₂) := by
  split_ifs <;> simp_all

theorem pawnTags_subset (c : TagCtx) (x : Tag) (hx : x ∈ pawnTags c) :
    x = Tag.kicks_piece := by
  simp only [pawnTags] at hx
  repeat' split at hx
  all_goals simp_all

theorem notMem_pawnTags (c : TagCtx) (x : Tag) (hx : x ≠ Tag.kicks_piece) :
    x ∉ pawnTags c :=
  fun h => hx (pawnTags_subset c x h)

theorem hanging_piece_mem (c : TagCtx) :
    Tag.hanging_piece ∈ computeTags c ↔ mkRat 6 5 < c.cpLoss ∧ c.matDiff ≤ -3 := by
  simp only [computeTags, contextTags, blunderTags, List.mem_append, mem_iteSingleton,
    mem_iteChain, mem_iteNested, mem_iteList,
    notMem_pawnTags c Tag.hanging_piece (by decide)]
  simp

theorem lost_material_mem (c : TagCtx) :
    Tag.lost_material ∈ computeTags c
      ↔ mkRat 6 5 < c.cpLoss ∧ ¬ c.matDiff ≤ -3 ∧ c.matDiff < 0 := by
  simp only [computeTags, contextTags, blunderTags, List.mem_append, mem_iteSingleton,
    mem_iteChain, mem_iteNested, mem_iteList,
    notMem_pawnTags c Tag.lost_material (by decide)]
  simp

/-- Claim C6: the bad-trade rule can never fire.  At an equal capture
(matDiff 0, SAN contains x) with cpLoss above 1.2, a White mover already five
pawns worse gets allowed_trade and not bad_trade, because the source compares
the pawn-scaled scoreBefore against -300 and 300 (centipawn-sized bounds its
own comment describes as a -3 eval); the claim (and that comment) put the
boundary at three pawns. -/
theorem bad_trade_threshold_never_fires :
    tradeCtx.matDiff = 0 ∧
    jsIncludes tradeCtx.san "x" = true ∧
    mkRat 6 5 < tradeCtx.cpLoss ∧
    tradeCtx.isWhiteMove = true ∧
    tradeCtx.scoreBefore < -3 ∧
    Tag.allowed_trade ∈ computeTags tradeCtx ∧
    Tag.bad_trade ∉ computeTags tradeCtx := by
  decide

/-! ### Material balance lemmas -/

theorem pieceVal_indicator (c : Char) :
    pieceVal c =
      1 * ((if c == 'P' then (1:Int) else 0) - (if c == 'p' then (1:Int) else 0))
      + 3 * ((if c == 'N' then (1:Int) else 0) - (if c == 'n' then (1:Int) else 0))
      + 3 * ((if c == 'B' then (1:Int) else 0) - (if c == 'b' then (1:Int) else 0))
      + 5 * ((if c == 'R' then (1:Int) else 0) - (if c == 'r' then (1:Int) else 0))
      + 9 * ((if c == 'Q' then (1:Int) else 0) - (if c == 'q' then (1:Int) else 0))
      + 0 * ((if c == 'K' then (1:Int) else 0) - (if c == 'k' then (1:Int) else 0)) := by
  by_cases h1 : c = 'P'
  · subst h1; decide
  by_cases h2 : c = 'N'
  · subst h2; decide
  by_cases h3 : c = 'B'
  · subst h3; decide
  by_cases h4 : c = 'R'
  · subst h4; decide
  by_cases h5 : c = 'Q'
  · subst h5; decide
  by_cases h6 : c = 'p'
  · subst h6; decide
  by_cases h7 : c = 'n'
  · subst h7; decide
  by_cases h8 : c = 'b'
  · subst h8; decide
  by_cases h9 : c = 'r'
  · subst h9; decide
  by_cases h10 : c = 'q'
  · subst h10; decide
  by_cases h11 : c = 'K'
  · subst h11; decide
  by_cases h12 : c = 'k'
  · subst h12; decide
  simp [pieceVal, beq_iff_eq, h1, h2, h3, h4, h5, h6, h7, h8, h9, h10, h11, h12]

theorem materialSpec_cons (c : Char) (t : List Char) :
    materialSpec (c :: t) = pieceVal c + materialSpec t := by
  simp only [materialSpec, List.count_cons]
  push_cast
  rw [pieceVal_indicator c]
  ring

theorem foldl_pieceVal (l : List Char) (init : Int) :
    l.foldl (fun bal c => bal + pieceVal c) init = init + materialSpec l := by
  induction l generalizing init with
  | nil => simp [materialSpec]
  | cons c t ih =>
      rw [List.foldl_cons, ih, materialSpec_cons]
      ring

/-- Claim C10: the material balance is computed solely from the FEN
piece-placement field as the signed sum with pawn 1, knight 3, bishop 3,
rook 5, queen 9 (White positive, Black negative) and kings contributing 0;
matDiff is that difference from the mover perspective; and the hanging_piece
and lost_material tags fire exactly at matDiff at most -3, respectively
matDiff negative but above -3, when cpLoss exceeds 1.2 — all in these units. -/
theorem material_balance_and_thresholds :
    (∀ fen : String, getMaterialBalance fen = materialSpec (fenPieceField fen).toList) ∧
    pieceVal 'K' = 0 ∧ pieceVal 'k' = 0 ∧
    (∀ matBefore matAfter : Int,
      moverMatDiff true matBefore matAfter = matAfter - matBefore ∧
      moverMatDiff false matBefore matAfter = matBefore - matAfter) ∧
    (∀ c : TagCtx,
      (Tag.hanging_piece ∈ computeTags c ↔ mkRat 6 5 < c.cpLoss ∧ c.matDiff ≤ -3) ∧
      (Tag.lost_material ∈ computeTags c
        ↔ mkRat 6 5 < c.cpLoss ∧ ¬ c.matDiff ≤ -3 ∧ c.matDiff < 0)) := by
  refine ⟨?_, by decide, by decide, ?_, ?_⟩
  · intro fen
    unfold getMaterialBalance
    rw [foldl_pieceVal]
    exact zero_add _
  · intro matBefore matAfter
    exact ⟨by simp [moverMatDiff], by simp [moverMatDiff]⟩
  · intro c
    exact ⟨hanging_piece_mem c, lost_material_mem c⟩

/-! ### ChessLogic timeline theorems -/

theorem applyOp_preserves_inv (R : RulesEngine) (s : LogicState) (op : LogicOp)
    (h : s.fens ≠ [] ∧ s.idx < s.fens.length) :
    (applyOp R s op).fens ≠ [] ∧ (applyOp R s op).idx < (applyOp R s op).fens.length := by
  obtain ⟨hne, hidx⟩ := h
  have hlen : 0 < s.fens.length := List.length_pos.mpr hne
  cases op with
  | reset => simp [applyOp, initState]
  | load pgn =>
      simp only [applyOp, loadPGN]
      cases hp : R.parsePgn pgn with
      | none => simp [initState]
      | some ms =>
          refine ⟨List.ne_nil_of_length_pos ?_, ?_⟩ <;> simp [fensOfReplay]
  | start => exact ⟨hne, by simpa [applyOp, goStart] using hlen⟩
  | finish =>
      refine ⟨hne, ?_⟩
      simp only [applyOp, goEnd]
      omega
  | next =>
      simp only [applyOp, goNext]
      split_ifs with hc
      · refine ⟨hne, ?_⟩
        show s.idx + 1 < s.fens.length
        omega
      · exact ⟨hne, hidx⟩
  | prev =>
      simp only [applyOp, goPrev]
      split_ifs with hc
      · refine ⟨hne, ?_⟩
        show s.idx - 1 < s.fens.length
        omega
      · exact ⟨hne, hidx⟩
  | seek i =>
      simp only [applyOp, goTo]
      split_ifs with hcond
      · obtain ⟨hge, hlt⟩ := hcond
        refine ⟨hne, ?_⟩
        show i.toNat < s.fens.length
        omega
      · exact ⟨hne, hidx⟩

theorem foldl_preserves_inv (R : RulesEngine) (ops : List LogicOp) :
    ∀ s : LogicState, s.fens ≠ [] ∧ s.idx < s.fens.length →
      (ops.foldl (applyOp R) s).fens ≠ [] ∧
      (ops.foldl (applyOp R) s).idx < (ops.foldl (applyOp R) s).fens.length := by
  induction ops with
  | nil => exact fun s h => h
  | cons op t ih =>
      intro s h
      rw [List.foldl_cons]
      exact ih _ (applyOp_preserves_inv R s op h)

/-- Claim C9: for every sequence of public ChessLogic operations starting from
a fresh instance, the position list stays non-empty and the cursor idx stays
within 0 to length - 1. -/
theorem cursor_stays_in_range (R : RulesEngine) (ops : List LogicOp) :
    (runOps R ops).fens ≠ [] ∧ (runOps R ops).idx ≤ (runOps R ops).fens.length - 1 := by
  have h0 : (initState R).fens ≠ [] ∧ (initState R).idx < (initState R).fens.length := by
    simp [initState]
  have h := foldl_preserves_inv R ops (initState R) h0
  simp only [runOps]
  exact ⟨h.1, by have h2 := h.2; omega⟩

/-- Claim C7, counterexample: after loading a one-move game, a failed load of
an unparsable transcript returns false but also resets the timeline, so the
previously loaded timeline is not left unchanged. -/
theorem loadPGN_failure_mutates_loaded_timeline :
    (loadPGN rules0 (loadPGN rules0 (initState rules0) "1. e4").2 "bad").1 = false ∧
    (loadPGN rules0 (loadPGN rules0 (initState rules0) "1. e4").2 "bad").2
      ≠ (loadPGN rules0 (initState rules0) "1. e4").2 := by
  decide

/-- Claim C7, amended: an unparsable transcript makes loadPGN return false,
and the timeline is then the freshly reset single-position timeline (the
previous game is discarded), not the previous timeline preserved. -/
theorem loadPGN_failure_resets_timeline (R : RulesEngine) (s : LogicState) (pgn : String)
    (h : R.parsePgn pgn = none) :
    loadPGN R s pgn = (false, initState R) := by
  simp [loadPGN, h]

theorem loadPGN_failure_resets_timeline_witness :
    rules0.parsePgn "bad" = none ∧
    loadPGN rules0 (loadPGN rules0 (initState rules0) "1. e4").2 "bad"
      = (false, initState rules0) :=
  ⟨by decide,
    loadPGN_failure_resets_timeline rules0
      (loadPGN rules0 (initState rules0) "1. e4").2 "bad" (by decide)⟩

/-! ### Engine session theorems -/

/-- Claim C2: a terminating bestmove signal belonging to a superseded search
does resolve the newer awaited request.  After warm-up, a live evaluation
starts search 0; evalAsync for promise 7 interrupts it with a stop and starts
its own search 1; the queued bestmove line of the stopped search 0 then
arrives before search 1 finishes, and it resolves promise 7 with the
freshly zeroed snapshot -- the stale signal is not discarded. -/
theorem stale_bestmove_resolves_new_promise :
    (runSys (initSys true) (staleTrace.take 4)).running = some 1 ∧
    (runSys (initSys true) (staleTrace.take 4)).eng.resolveEval = some 7 ∧
    (runSys (initSys true) (staleTrace.take 4)).outbox = [0] ∧
    (runSys (initSys true) staleTrace).resolutions =
      [(7, some 0,
        { depth := 0, score := 0, isMate := false, bestMove := some "a7a6", pv := none })] ∧
    (runSys (initSys true) staleTrace).eng.resolveEval = none := by
  decide

/-- Claim C8, counterexample: when the worker cannot be created, the failure
is not surfaced: evaluate is dropped at entry, and an evalAsync call followed
by any would-be worker chatter and the timeout leaves the session in its
initial state with an empty resolution log, so the promise is never
resolved and the caller observes nothing. -/
theorem failed_init_unobservable_to_callers :
    (initSys false).eng.hasWorker = false ∧
    evaluateOutcome (initSys false).eng = EvalOutcome.dropped ∧
    runSys (initSys false) [Ev.apiEvalAsync 1, Ev.msgUciOk, Ev.msgReadyOk, Ev.fireTimeout]
      = initSys false := by
  decide

theorem stepSys_dead (e : Ev) : stepSys (initSys false) e = initSys false := by
  cases e <;> rfl

/-- Claim C8, amended: when the oracle process fails to start, the failure is
only logged: under every event schedule the session never becomes ready,
never resolves any promise (evalAsync hangs forever behind the readiness
poll), and every evaluate call is silently dropped. -/
theorem failed_init_engine_inert (evs : List Ev) :
    runSys (initSys false) evs = initSys false ∧
    (runSys (initSys false) evs).eng.ready = false ∧
    (runSys (initSys false) evs).resolutions = [] ∧
    evaluateOutcome (runSys (initSys false) evs).eng = EvalOutcome.dropped := by
  have h : runSys (initSys false) evs = initSys false := by
    induction evs with
    | nil => rfl
    | cons e t ih =>
        simp only [runSys, List.foldl_cons, stepSys_dead] at ih ⊢
        exact ih
  refine ⟨h, ?_, ?_, ?_⟩ <;> rw [h] <;> rfl

end ChessKitten
